import Mathlib

/-!
Shallow embedding of the barcode-generation subsystem of
`internal/services/generator/barcode.go` (Go package `generator`) of the
microtools-api repository, together with the request model from
`internal/models`.

Modelling conventions:
* A Go `string` is modelled as `List Char`, i.e. the decoded sequence of
  Unicode scalar values; `len(s)` on such a string is the UTF-8 byte count,
  modelled by `utf8Length`.  For the all-ASCII data handled by the numeric
  validators the byte count and the character count coincide.
* Go `int` is modelled as `Int` where the source can receive negative
  values (image dimensions decoded from JSON) and as `Nat` where the
  source only ever produces non-negative values (checksum arithmetic on
  digits, which stays within 0..599).
* Fallible Go functions returning `error` are modelled with
  `Option BarcodeError` (`none` = nil error); functions returning
  `(T, error)` become products or `Except`.
* Error values carry only their sentinel identity (the Go code wraps the
  sentinels `ErrInvalidType`, `ErrInvalidFormat`, `ErrInvalidData`,
  `ErrChecksumMismatch` with `fmt.Errorf` message text, which no caller
  inspects); `checksumMismatch` keeps the two digits it reports.
-/

namespace Generator

/-- Barcode type tags from the `const` block of barcode.go. -/
def BarcodeTypeUPCA : String := "UPC-A"

/-- EAN-13 type tag. -/
def BarcodeTypeEAN13 : String := "EAN-13"

/-- Code128 type tag. -/
def BarcodeTypeCode128 : String := "Code128"

/-- Output format tag for PNG. -/
def BarcodeFormatPNG : String := "png"

/-- Output format tag for SVG. -/
def BarcodeFormatSVG : String := "svg"

def defaultBarcodeWidth : Int := 300

def defaultBarcodeHeight : Int := 150

def maxBarcodeWidth : Int := 1024

def maxBarcodeHeight : Int := 1024

def minBarcodeWidth : Int := 50

def minBarcodeHeight : Int := 50

def textPaddingHeight : Int := 20

def maxCode128Length : Nat := 500

/-- The error values of barcode.go, by sentinel identity.  `internal`
models the non-sentinel errors produced inside the renderers (scale and
codec failures wrapped with `fmt.Errorf`). -/
inductive BarcodeError where
  | invalidType
  | invalidFormat
  | invalidData
  | checksumMismatch (expected actual : Nat)
  | internal
deriving Repr, DecidableEq

/-- `models.GenerateRequest` from `internal/models` (barcode generation
request).  Field names follow the Go struct. -/
structure GenerateRequest where
  data : List Char
  type : String
  format : String
  width : Int
  height : Int
  includeText : Bool
  backgroundColor : String
  foregroundColor : String
  textColor : String
  textPosition : String
  fontSize : Int
  padding : Int
deriving Repr, DecidableEq

/-- Go `int(c - '0')` applied to a digit character. -/
def digitVal (c : Char) : Nat := c.toNat - '0'.toNat

/-- `isNumeric` from barcode.go: a nonempty string whose every rune is in
`'0'..'9'`. -/
def isNumeric (s : List Char) : Bool :=
  if s.length = 0 then false
  else s.all fun c => !(decide (c < '0') || decide ('9' < c))

/-- Number of bytes in the UTF-8 encoding of one scalar value; Go
`len(string)` counts these bytes. -/
def utf8Size (c : Char) : Nat :=
  if c.toNat < 0x80 then 1
  else if c.toNat < 0x800 then 2
  else if c.toNat < 0x10000 then 3
  else 4

/-- Go `len` of a string: total UTF-8 byte length. -/
def utf8Length (s : List Char) : Nat := (s.map utf8Size).sum

/-- Go `utf8.ValidString`: a `List Char` models an already-decoded string,
whose re-encoding is valid UTF-8, so on this representation the check is
identically true. -/
def utf8ValidString (s : List Char) : Bool :=
  (fun _ => true) s

/-- `computeUPCAChecksum` from barcode.go: weighted sum of the first 11
digits, weight 3 at even index and 1 at odd index, then
`(10 - sum % 10) % 10`.  The Go loop variable `d := int(digits[i] - '0')`
is inlined; the out-of-range behaviour of `digits[i]` is studied through
`computeUPCAChecksumChecked` below, here `getD _ '0'` totalises it. -/
def computeUPCAChecksum (digits : List Char) : Nat :=
  (10 - ((List.range 11).foldl
    (fun sum i =>
      if i % 2 = 0 then sum + digitVal (digits.getD i '0') * 3
      else sum + digitVal (digits.getD i '0') * 1) 0) % 10) % 10

/-- `validateUPCAChecksum` from barcode.go: compares the computed check
digit of `data[:11]` with `int(data[11] - '0')`. -/
def validateUPCAChecksum (data : List Char) : Option BarcodeError :=
  let expected := computeUPCAChecksum (data.take 11)
  let actual := digitVal (data.getD 11 '0')
  if expected ≠ actual then some (.checksumMismatch expected actual) else none

/-- `computeEAN13Checksum` from barcode.go: weighted sum of the first 12
digits, weight 1 at even index and 3 at odd index. -/
def computeEAN13Checksum (digits : List Char) : Nat :=
  (10 - ((List.range 12).foldl
    (fun sum i =>
      if i % 2 = 0 then sum + digitVal (digits.getD i '0') * 1
      else sum + digitVal (digits.getD i '0') * 3) 0) % 10) % 10

/-- `validateEAN13Checksum` from barcode.go. -/
def validateEAN13Checksum (data : List Char) : Option BarcodeError :=
  let expected := computeEAN13Checksum (data.take 12)
  let actual := digitVal (data.getD 12 '0')
  if expected ≠ actual then some (.checksumMismatch expected actual) else none

/-- `validateBarcodeData` from barcode.go.  The Go `switch` on the type
tag becomes a chain of ifs; an unknown type falls through to `nil`. -/
def validateBarcodeData (barcodeType : String) (data : List Char) :
    Option BarcodeError :=
  if barcodeType = BarcodeTypeUPCA then
    if !isNumeric data then some .invalidData
    else if data.length ≠ 11 ∧ data.length ≠ 12 then some .invalidData
    else if data.length = 12 then validateUPCAChecksum data
    else none
  else if barcodeType = BarcodeTypeEAN13 then
    if !isNumeric data then some .invalidData
    else if data.length ≠ 12 ∧ data.length ≠ 13 then some .invalidData
    else if data.length = 13 then validateEAN13Checksum data
    else none
  else if barcodeType = BarcodeTypeCode128 then
    if !utf8ValidString data then some .invalidData
    else if utf8Length data > maxCode128Length then some .invalidData
    else none
  else none

lemma getD_take {α : Type} (l : List α) (d : α) :
    ∀ (n i : Nat), i < n → (l.take n).getD i d = l.getD i d := by
  induction l with
  | nil => intro n i _; simp
  | cons a t ih =>
      intro n i hi
      cases n with
      | zero => omega
      | succ n =>
          cases i with
          | zero => simp
          | succ i =>
              simp only [List.take_succ_cons, List.getD_cons_succ]
              exact ih n i (by omega)

lemma upcaFold_eq (digits : List Char) :
    ∀ (n s0 : Nat),
      (List.range n).foldl
        (fun sum i =>
          if i % 2 = 0 then sum + digitVal (digits.getD i '0') * 3
          else sum + digitVal (digits.getD i '0') * 1) s0
      = s0 + ∑ i ∈ Finset.range n,
          digitVal (digits.getD i '0') * (if i % 2 = 0 then 3 else 1) := by
  intro n
  induction n with
  | zero => intro s0; simp
  | succ n ih =>
      intro s0
      rw [List.range_succ, List.foldl_append, Finset.sum_range_succ, ih]
      simp only [List.foldl_cons, List.foldl_nil]
      by_cases h : n % 2 = 0 <;> simp [h] <;> ring

lemma ean13Fold_eq (digits : List Char) :
    ∀ (n s0 : Nat),
      (List.range n).foldl
        (fun sum i =>
          if i % 2 = 0 then sum + digitVal (digits.getD i '0') * 1
          else sum + digitVal (digits.getD i '0') * 3) s0
      = s0 + ∑ i ∈ Finset.range n,
          digitVal (digits.getD i '0') * (if i % 2 = 0 then 1 else 3) := by
  intro n
  induction n with
  | zero => intro s0; simp
  | succ n ih =>
      intro s0
      rw [List.range_succ, List.foldl_append, Finset.sum_range_succ, ih]
      simp only [List.foldl_cons, List.foldl_nil]
      by_cases h : n % 2 = 0 <;> simp [h] <;> ring

lemma computeUPCAChecksum_take (data : List Char) :
    computeUPCAChecksum (data.take 11) =
      (10 - (∑ i ∈ Finset.range 11,
        digitVal (data.getD i '0') * (if i % 2 = 0 then 3 else 1)) % 10) % 10 := by
  have hsum : (∑ i ∈ Finset.range 11,
        digitVal ((data.take 11).getD i '0') * (if i % 2 = 0 then 3 else 1))
      = ∑ i ∈ Finset.range 11,
        digitVal (data.getD i '0') * (if i % 2 = 0 then 3 else 1) :=
    Finset.sum_congr rfl fun i hi => by
      rw [getD_take data '0' 11 i (Finset.mem_range.mp hi)]
  unfold computeUPCAChecksum
  rw [upcaFold_eq, Nat.zero_add, hsum]

lemma computeEAN13Checksum_take (data : List Char) :
    computeEAN13Checksum (data.take 12) =
      (10 - (∑ i ∈ Finset.range 12,
        digitVal (data.getD i '0') * (if i % 2 = 0 then 1 else 3)) % 10) % 10 := by
  have hsum : (∑ i ∈ Finset.range 12,
        digitVal ((data.take 12).getD i '0') * (if i % 2 = 0 then 1 else 3))
      = ∑ i ∈ Finset.range 12,
        digitVal (data.getD i '0') * (if i % 2 = 0 then 1 else 3) :=
    Finset.sum_congr rfl fun i hi => by
      rw [getD_take data '0' 12 i (Finset.mem_range.mp hi)]
  unfold computeEAN13Checksum
  rw [ean13Fold_eq, Nat.zero_add, hsum]

lemma isNumeric_of (data : List Char) (hne : data.length ≠ 0)
    (hdig : ∀ c ∈ data, '0' ≤ c ∧ c ≤ '9') : isNumeric data = true := by
  simp only [isNumeric, hne, if_false, List.all_eq_true]
  intro c hc
  obtain ⟨h1, h2⟩ := hdig c hc
  simp [not_lt.mpr h1, not_lt.mpr h2]

/-- Claim C1: for every 12-digit numeric UPC-A data string, data
validation accepts exactly when digit 11 equals
`(10 - (∑ i < 11, digit i * (3 if i even else 1)) % 10) % 10`
(0-indexed from the left), and every rejection of such a string is a
checksum-mismatch error. -/
theorem upca_checksum_validation (data : List Char)
    (hlen : data.length = 12) (hdig : ∀ c ∈ data, '0' ≤ c ∧ c ≤ '9') :
    (validateBarcodeData BarcodeTypeUPCA data = none ↔
      digitVal (data.getD 11 '0') =
        (10 - (∑ i ∈ Finset.range 11,
          digitVal (data.getD i '0') * (if i % 2 = 0 then 3 else 1)) % 10) % 10) ∧
    (validateBarcodeData BarcodeTypeUPCA data ≠ none →
      ∃ e a, validateBarcodeData BarcodeTypeUPCA data =
        some (.checksumMismatch e a)) := by
  have hnum : isNumeric data = true := isNumeric_of data (by omega) hdig
  have hv : validateBarcodeData BarcodeTypeUPCA data = validateUPCAChecksum data := by
    simp [validateBarcodeData, hnum, hlen, BarcodeTypeUPCA, BarcodeTypeEAN13,
      BarcodeTypeCode128]
  have hval : validateUPCAChecksum data =
      if computeUPCAChecksum (data.take 11) ≠ digitVal (data.getD 11 '0') then
        some (.checksumMismatch (computeUPCAChecksum (data.take 11))
          (digitVal (data.getD 11 '0')))
      else none := rfl
  rw [hv, hval, computeUPCAChecksum_take]
  by_cases hc : digitVal (data.getD 11 '0') =
      (10 - (∑ i ∈ Finset.range 11,
        digitVal (data.getD i '0') * (if i % 2 = 0 then 3 else 1)) % 10) % 10
  · rw [if_neg (by omega)]
    exact ⟨iff_of_true rfl hc, fun h => absurd rfl h⟩
  · rw [if_pos (by omega)]
    exact ⟨iff_of_false (by simp) hc, fun _ => ⟨_, _, rfl⟩⟩

/-- Witness for C1: the known-valid code 036000291452 is accepted. -/
theorem upca_checksum_validation_witness :
    validateBarcodeData BarcodeTypeUPCA ("036000291452".toList) = none :=
  (upca_checksum_validation ("036000291452".toList) (by decide)
    (by decide)).1.mpr (by decide)

/-- Claim C2: for every 13-digit numeric EAN-13 data string, data
validation accepts exactly when digit 12 equals
`(10 - (∑ i < 12, digit i * (1 if i even else 3)) % 10) % 10`
(0-indexed from the left), and every rejection of such a string is a
checksum-mismatch error. -/
theorem ean13_checksum_validation (data : List Char)
    (hlen : data.length = 13) (hdig : ∀ c ∈ data, '0' ≤ c ∧ c ≤ '9') :
    (validateBarcodeData BarcodeTypeEAN13 data = none ↔
      digitVal (data.getD 12 '0') =
        (10 - (∑ i ∈ Finset.range 12,
          digitVal (data.getD i '0') * (if i % 2 = 0 then 1 else 3)) % 10) % 10) ∧
    (validateBarcodeData BarcodeTypeEAN13 data ≠ none →
      ∃ e a, validateBarcodeData BarcodeTypeEAN13 data =
        some (.checksumMismatch e a)) := by
  have hnum : isNumeric data = true := isNumeric_of data (by omega) hdig
  have hv : validateBarcodeData BarcodeTypeEAN13 data = validateEAN13Checksum data := by
    simp [validateBarcodeData, hnum, hlen, BarcodeTypeUPCA, BarcodeTypeEAN13,
      BarcodeTypeCode128]
  have hval : validateEAN13Checksum data =
      if computeEAN13Checksum (data.take 12) ≠ digitVal (data.getD 12 '0') then
        some (.checksumMismatch (computeEAN13Checksum (data.take 12))
          (digitVal (data.getD 12 '0')))
      else none := rfl
  rw [hv, hval, computeEAN13Checksum_take]
  by_cases hc : digitVal (data.getD 12 '0') =
      (10 - (∑ i ∈ Finset.range 12,
        digitVal (data.getD i '0') * (if i % 2 = 0 then 1 else 3)) % 10) % 10
  · rw [if_neg (by omega)]
    exact ⟨iff_of_true rfl hc, fun h => absurd rfl h⟩
  · rw [if_pos (by omega)]
    exact ⟨iff_of_false (by simp) hc, fun _ => ⟨_, _, rfl⟩⟩

/-- Witness for C2: the known-valid code 0360002914522 is accepted. -/
theorem ean13_checksum_validation_witness :
    validateBarcodeData BarcodeTypeEAN13 ("0360002914522".toList) = none :=
  (ean13_checksum_validation ("0360002914522".toList) (by decide)
    (by decide)).1.mpr (by decide)

set_option maxRecDepth 10000 in
/-- Counterexample to claim C6 as stated: 251 copies of the two-byte
character 'é' form valid text of 251 (≤ 500) characters, yet Code128 data
validation rejects it, because the Go code compares `len(data)` — the
UTF-8 byte length, here 502 — against the 500 limit. -/
theorem code128_char_limit_counterexample :
    (List.replicate 251 'é').length = 251 ∧
    utf8ValidString (List.replicate 251 'é') = true ∧
    utf8Length (List.replicate 251 'é') = 502 ∧
    validateBarcodeData BarcodeTypeCode128 (List.replicate 251 'é') =
      some .invalidData := by
  refine ⟨by simp, rfl, by decide, by decide⟩

/-- Claim C6 amended: Code128 data validation accepts exactly the texts
whose UTF-8 encoding is at most 500 bytes and rejects longer data with
the invalid-data error; the limit is counted in bytes of the encoded
text, not in characters.  (The 1-character lower bound of the claim is
enforced separately by the request-level empty-data check, see
`validateBarcodeRequest`.) -/
theorem code128_byte_limit (data : List Char) :
    (utf8Length data ≤ maxCode128Length →
      validateBarcodeData BarcodeTypeCode128 data = none) ∧
    (utf8Length data > maxCode128Length →
      validateBarcodeData BarcodeTypeCode128 data = some .invalidData) := by
  have h : validateBarcodeData BarcodeTypeCode128 data =
      if utf8Length data > maxCode128Length then some .invalidData else none := by
    simp [validateBarcodeData, utf8ValidString, BarcodeTypeUPCA, BarcodeTypeEAN13,
      BarcodeTypeCode128]
  constructor <;> intro hlen <;> rw [h]
  · rw [if_neg (by omega)]
  · rw [if_pos hlen]

/-- Witness for the amended C6: an ordinary short label is accepted. -/
theorem code128_byte_limit_witness :
    validateBarcodeData BarcodeTypeCode128 ("Hello, World!".toList) = none :=
  (code128_byte_limit ("Hello, World!".toList)).1 (by decide)

lemma getD_of_lt {α : Type} (l : List α) (n : Nat) (d : α) (h : n < l.length) :
    l[n]? = some (l.getD n d) := by
  rw [List.getD_eq_getElem?_getD, List.getElem?_eq_getElem h]
  rfl

/-- `computeUPCAChecksum` with every string index access checked: `none`
models the out-of-range branch of Go string indexing (a runtime panic). -/
def computeUPCAChecksumChecked (digits : List Char) : Option Nat :=
  ((List.range 11).foldl
    (fun sum i => sum.bind fun s => digits[i]?.map fun c =>
      if i % 2 = 0 then s + digitVal c * 3 else s + digitVal c * 1)
    (some 0)).map fun s => (10 - s % 10) % 10

/-- `computeEAN13Checksum` with checked index accesses. -/
def computeEAN13ChecksumChecked (digits : List Char) : Option Nat :=
  ((List.range 12).foldl
    (fun sum i => sum.bind fun s => digits[i]?.map fun c =>
      if i % 2 = 0 then s + digitVal c * 1 else s + digitVal c * 3)
    (some 0)).map fun s => (10 - s % 10) % 10

/-- `validateUPCAChecksum` with checked index accesses. -/
def validateUPCAChecksumChecked (data : List Char) : Option (Option BarcodeError) :=
  (computeUPCAChecksumChecked (data.take 11)).bind fun expected =>
    data[11]?.map fun c =>
      if expected ≠ digitVal c then some (.checksumMismatch expected (digitVal c))
      else none

/-- `validateEAN13Checksum` with checked index accesses. -/
def validateEAN13ChecksumChecked (data : List Char) : Option (Option BarcodeError) :=
  (computeEAN13ChecksumChecked (data.take 12)).bind fun expected =>
    data[12]?.map fun c =>
      if expected ≠ digitVal c then some (.checksumMismatch expected (digitVal c))
      else none

/-- `validateBarcodeData` with checked index accesses in the checksum
validators; every other branch is index-free and wrapped in `some`. -/
def validateBarcodeDataChecked (barcodeType : String) (data : List Char) :
    Option (Option BarcodeError) :=
  if barcodeType = BarcodeTypeUPCA then
    if !isNumeric data then some (some .invalidData)
    else if data.length ≠ 11 ∧ data.length ≠ 12 then some (some .invalidData)
    else if data.length = 12 then validateUPCAChecksumChecked data
    else some none
  else if barcodeType = BarcodeTypeEAN13 then
    if !isNumeric data then some (some .invalidData)
    else if data.length ≠ 12 ∧ data.length ≠ 13 then some (some .invalidData)
    else if data.length = 13 then validateEAN13ChecksumChecked data
    else some none
  else if barcodeType = BarcodeTypeCode128 then
    if !utf8ValidString data then some (some .invalidData)
    else if utf8Length data > maxCode128Length then some (some .invalidData)
    else some none
  else some none

lemma upcaFoldChecked_eq (digits : List Char) :
    ∀ (n : Nat), n ≤ digits.length → ∀ (s0 : Nat),
      (List.range n).foldl
        (fun sum i => sum.bind fun s => digits[i]?.map fun c =>
          if i % 2 = 0 then s + digitVal c * 3 else s + digitVal c * 1)
        (some s0)
      = some ((List.range n).foldl
          (fun sum i =>
            if i % 2 = 0 then sum + digitVal (digits.getD i '0') * 3
            else sum + digitVal (digits.getD i '0') * 1) s0) := by
  intro n
  induction n with
  | zero => intro _ s0; simp
  | succ n ih =>
      intro hn s0
      have hget : digits[n]? = some (digits.getD n '0') :=
        getD_of_lt digits n '0' (by omega)
      rw [List.range_succ, List.foldl_append, List.foldl_append, ih (by omega)]
      simp only [List.foldl_cons, List.foldl_nil, Option.some_bind, hget,
        Option.map_some']

lemma ean13FoldChecked_eq (digits : List Char) :
    ∀ (n : Nat), n ≤ digits.length → ∀ (s0 : Nat),
      (List.range n).foldl
        (fun sum i => sum.bind fun s => digits[i]?.map fun c =>
          if i % 2 = 0 then s + digitVal c * 1 else s + digitVal c * 3)
        (some s0)
      = some ((List.range n).foldl
          (fun sum i =>
            if i % 2 = 0 then sum + digitVal (digits.getD i '0') * 1
            else sum + digitVal (digits.getD i '0') * 3) s0) := by
  intro n
  induction n with
  | zero => intro _ s0; simp
  | succ n ih =>
      intro hn s0
      have hget : digits[n]? = some (digits.getD n '0') :=
        getD_of_lt digits n '0' (by omega)
      rw [List.range_succ, List.foldl_append, List.foldl_append, ih (by omega)]
      simp only [List.foldl_cons, List.foldl_nil, Option.some_bind, hget,
        Option.map_some']

lemma computeUPCAChecksumChecked_eq (digits : List Char) (h : 11 ≤ digits.length) :
    computeUPCAChecksumChecked digits = some (computeUPCAChecksum digits) := by
  unfold computeUPCAChecksumChecked computeUPCAChecksum
  rw [upcaFoldChecked_eq digits 11 h 0]
  rfl

lemma computeEAN13ChecksumChecked_eq (digits : List Char) (h : 12 ≤ digits.length) :
    computeEAN13ChecksumChecked digits = some (computeEAN13Checksum digits) := by
  unfold computeEAN13ChecksumChecked computeEAN13Checksum
  rw [ean13FoldChecked_eq digits 12 h 0]
  rfl

lemma validateUPCAChecksumChecked_eq (data : List Char) (h : data.length = 12) :
    validateUPCAChecksumChecked data = some (validateUPCAChecksum data) := by
  unfold validateUPCAChecksumChecked validateUPCAChecksum
  rw [computeUPCAChecksumChecked_eq (data.take 11) (by simp [List.length_take]; omega)]
  have hget : data[11]? = some (data.getD 11 '0') := getD_of_lt data 11 '0' (by omega)
  simp only [Option.some_bind, hget, Option.map_some']

lemma validateEAN13ChecksumChecked_eq (data : List Char) (h : data.length = 13) :
    validateEAN13ChecksumChecked data = some (validateEAN13Checksum data) := by
  unfold validateEAN13ChecksumChecked validateEAN13Checksum
  rw [computeEAN13ChecksumChecked_eq (data.take 12) (by simp [List.length_take]; omega)]
  have hget : data[12]? = some (data.getD 12 '0') := getD_of_lt data 12 '0' (by omega)
  simp only [Option.some_bind, hget, Option.map_some']

/-- Claim C10: on every input, the data validator with fully checked
string indexing never reaches the out-of-range branch and agrees with the
total embedding: the checksum validators only run after numeric charset
and exact length (12 for UPC-A, 13 for EAN-13) are established, so all
accesses to positions 0..11 (resp. 0..12) are in bounds on every
validation path. -/
theorem validateBarcodeData_index_safe (barcodeType : String) (data : List Char) :
    validateBarcodeDataChecked barcodeType data =
      some (validateBarcodeData barcodeType data) := by
  unfold validateBarcodeDataChecked validateBarcodeData
  split_ifs <;>
    first
      | rfl
      | exact validateUPCAChecksumChecked_eq data (by omega)
      | exact validateEAN13ChecksumChecked_eq data (by omega)

/-- `applyBarcodeDefaults` from barcode.go: fills width and height with
300 and 150 exactly when the supplied value is zero.  The Go function
mutates `*req`; `Generate` uses the mutated value, modelled functionally. -/
def applyBarcodeDefaults (req : GenerateRequest) : GenerateRequest :=
  let req := if req.width = 0 then { req with width := defaultBarcodeWidth } else req
  if req.height = 0 then { req with height := defaultBarcodeHeight } else req

/-- `validateBarcodeRequest` from barcode.go: type switch, format switch,
empty-data check, per-type data validation, then dimension bounds. -/
def validateBarcodeRequest (req : GenerateRequest) : Option BarcodeError :=
  if req.type ≠ BarcodeTypeUPCA ∧ req.type ≠ BarcodeTypeEAN13 ∧
      req.type ≠ BarcodeTypeCode128 then
    some .invalidType
  else if req.format ≠ BarcodeFormatPNG ∧ req.format ≠ BarcodeFormatSVG then
    some .invalidFormat
  else if req.data = [] then some .invalidData
  else
    match validateBarcodeData req.type req.data with
    | some e => some e
    | none =>
        if req.width < minBarcodeWidth ∨ req.width > maxBarcodeWidth then
          some .invalidData
        else if req.height < minBarcodeHeight ∨ req.height > maxBarcodeHeight then
          some .invalidData
        else none

/-- The external symbology encoders consumed by `encodeBarcode`
(`ean.Encode` and `code128.Encode` from boombuler/barcode), abstracted as
an arbitrary pure capability from the data string to a bar pattern
(`List Bool`, `true` = black) or an error.  The error content is opaque
to the caller, so it is modelled as `Unit`. -/
structure SymbologyEncoder where
  eanEncode : List Char → Except Unit (List Bool)
  code128Encode : List Char → Except Unit (List Bool)

/-- `encodeBarcode` from barcode.go: UPC-A data is promoted with a single
leading zero and sent to the EAN encoder; encoder failures are wrapped as
invalid-data errors; an unknown type is an invalid-type error. -/
def encodeBarcode (enc : SymbologyEncoder) (barcodeType : String)
    (data : List Char) : Except BarcodeError (List Bool) :=
  if barcodeType = BarcodeTypeUPCA then
    match enc.eanEncode ('0' :: data) with
    | .error _ => .error .invalidData
    | .ok bc => .ok bc
  else if barcodeType = BarcodeTypeEAN13 then
    match enc.eanEncode data with
    | .error _ => .error .invalidData
    | .ok bc => .ok bc
  else if barcodeType = BarcodeTypeCode128 then
    match enc.code128Encode data with
    | .error _ => .error .invalidData
    | .ok bc => .ok bc
  else .error .invalidType

/-- The graphics-library effects used by the renderers, abstracted as an
arbitrary environment: whether `barcode.Scale` fails, whether `png.Encode`
fails, and the bytes each encoder serializes on success.  Each field is a
function of exactly the data the Go code passes to the library. -/
structure RenderEnv where
  scaleErr : List Bool → Int → Int → Option Unit
  pngEncodeErr : List Bool → Int → Int → Bool → List Char → Option Unit
  pngBytes : List Bool → Int → Int → Bool → List Char → List Nat
  svgBytes : List Bool → Int → Int → Bool → List Char → List Nat

/-- `renderBarcodePNG` from barcode.go, by its error structure: a scale
failure or a codec failure returns `nil` bytes with a wrapped (internal)
error, otherwise the serialized buffer with a nil error. -/
def renderBarcodePNG (env : RenderEnv) (bc : List Bool) (width height : Int)
    (includeText : Bool) (text : List Char) : List Nat × Option BarcodeError :=
  match env.scaleErr bc width height with
  | some _ => ([], some .internal)
  | none =>
      match env.pngEncodeErr bc width height includeText text with
      | some _ => ([], some .internal)
      | none => (env.pngBytes bc width height includeText text, none)

/-- `renderBarcodeSVG` from barcode.go, by its error structure: it builds
the document in memory and its single return site is `(buf.Bytes(), nil)`;
it never fails.  (Its rectangle geometry is modelled separately by
`renderBarcodeSVGRects`.) -/
def renderBarcodeSVG (env : RenderEnv) (bc : List Bool) (width height : Int)
    (includeText : Bool) (text : List Char) : List Nat × Option BarcodeError :=
  (env.svgBytes bc width height includeText text, none)

/-- `Generate` from barcode.go: apply defaults, validate, encode, then
branch on the format to the PNG or SVG renderer. -/
def Generate (enc : SymbologyEncoder) (env : RenderEnv) (req0 : GenerateRequest) :
    List Nat × String × Option BarcodeError :=
  let req := applyBarcodeDefaults req0
  match validateBarcodeRequest req with
  | some e => ([], "", some e)
  | none =>
      match encodeBarcode enc req.type req.data with
      | .error e => ([], "", some e)
      | .ok bc =>
          if req.format = BarcodeFormatPNG then
            let r := renderBarcodePNG env bc req.width req.height req.includeText req.data
            (r.1, "image/png", r.2)
          else if req.format = BarcodeFormatSVG then
            let r := renderBarcodeSVG env bc req.width req.height req.includeText req.data
            (r.1, "image/svg+xml", r.2)
          else ([], "", some .invalidFormat)

/-- Claim C5 evidence (code bug): an otherwise-valid generate request
whose format field is unspecified (empty) is rejected with the
invalid-format error instead of defaulting to PNG —
`applyBarcodeDefaults` fills only width and height, and the format switch
of `validateBarcodeRequest` treats the empty string as unsupported. -/
theorem generate_empty_format_rejected (enc : SymbologyEncoder) (env : RenderEnv) :
    Generate enc env
      { data := "036000291452".toList, type := BarcodeTypeUPCA, format := "",
        width := 0, height := 0, includeText := false, backgroundColor := "",
        foregroundColor := "", textColor := "", textPosition := "",
        fontSize := 0, padding := 0 }
      = ([], "", some .invalidFormat) := rfl

lemma applyBarcodeDefaults_spec (req : GenerateRequest) :
    applyBarcodeDefaults req =
      { req with
          width := if req.width = 0 then defaultBarcodeWidth else req.width,
          height := if req.height = 0 then defaultBarcodeHeight else req.height } := by
  obtain ⟨d, ty, fmt, w, h, it, bg, fg, tc, tp, fs, pd⟩ := req
  unfold applyBarcodeDefaults
  by_cases hw : w = (0 : Int) <;> by_cases hh : h = (0 : Int) <;> simp [hw, hh]

/-- Claim C7: with type, format and data otherwise valid, defaulting
substitutes width 300 and height 150 exactly when the supplied value is
zero, and the defaulted request passes validation exactly when both
dimensions lie in [50, 1024]; every dimension rejection is the
invalid-data error. -/
theorem dimension_bounds_validation (req : GenerateRequest)
    (htype : req.type = BarcodeTypeUPCA ∨ req.type = BarcodeTypeEAN13 ∨
      req.type = BarcodeTypeCode128)
    (hfmt : req.format = BarcodeFormatPNG ∨ req.format = BarcodeFormatSVG)
    (hne : req.data ≠ [])
    (hdata : validateBarcodeData req.type req.data = none) :
    ((applyBarcodeDefaults req).width = if req.width = 0 then 300 else req.width) ∧
    ((applyBarcodeDefaults req).height = if req.height = 0 then 150 else req.height) ∧
    (validateBarcodeRequest (applyBarcodeDefaults req) = none ↔
      (50 ≤ (applyBarcodeDefaults req).width ∧ (applyBarcodeDefaults req).width ≤ 1024 ∧
        50 ≤ (applyBarcodeDefaults req).height ∧ (applyBarcodeDefaults req).height ≤ 1024)) ∧
    (validateBarcodeRequest (applyBarcodeDefaults req) ≠ none →
      validateBarcodeRequest (applyBarcodeDefaults req) = some .invalidData) := by
  obtain ⟨d, ty, fmt, w, h, it, bg, fg, tc, tp, fs, pd⟩ := req
  simp only at htype hfmt hne hdata
  rw [applyBarcodeDefaults_spec]
  simp only
  have ht : ¬(ty ≠ BarcodeTypeUPCA ∧ ty ≠ BarcodeTypeEAN13 ∧ ty ≠ BarcodeTypeCode128) := by
    rcases htype with h | h | h <;> simp [h]
  have hf : ¬(fmt ≠ BarcodeFormatPNG ∧ fmt ≠ BarcodeFormatSVG) := by
    rcases hfmt with h | h <;> simp [h]
  refine ⟨rfl, rfl, ?_⟩
  set W : Int := if w = 0 then defaultBarcodeWidth else w with hW
  set H : Int := if h = 0 then defaultBarcodeHeight else h with hH
  simp only [validateBarcodeRequest, minBarcodeWidth, maxBarcodeWidth,
    minBarcodeHeight, maxBarcodeHeight]
  rw [if_neg ht, if_neg hf, if_neg hne, hdata]
  by_cases hb : 50 ≤ W ∧ W ≤ 1024 ∧ 50 ≤ H ∧ H ≤ 1024
  · rw [if_neg (by omega), if_neg (by omega)]
    exact ⟨iff_of_true rfl hb, fun hcon => absurd rfl hcon⟩
  · have hres : (if W < 50 ∨ W > 1024 then some BarcodeError.invalidData
        else if H < 50 ∨ H > 1024 then some BarcodeError.invalidData
        else none) = some BarcodeError.invalidData := by
      split_ifs with h1 h2
      · rfl
      · rfl
      · exact absurd ⟨by omega, by omega, by omega, by omega⟩ hb
    rw [hres]
    exact ⟨iff_of_false (by simp) hb, fun _ => rfl⟩

/-- Witness for C7: width 50 and height 1024 are accepted. -/
theorem dimension_bounds_validation_witness :
    validateBarcodeRequest (applyBarcodeDefaults
      { data := "x".toList, type := BarcodeTypeCode128, format := BarcodeFormatPNG,
        width := 50, height := 1024, includeText := false, backgroundColor := "",
        foregroundColor := "", textColor := "", textPosition := "",
        fontSize := 0, padding := 0 }) = none :=
  (dimension_bounds_validation _ (Or.inr (Or.inr rfl)) (Or.inl rfl)
    (by decide) (by decide)).2.2.1.mpr (by decide)

/-- Claim C8: whenever `Generate` returns a non-nil error, the returned
byte slice is empty — no partial output accompanies an error. -/
theorem generate_error_empty_bytes (enc : SymbologyEncoder) (env : RenderEnv)
    (req : GenerateRequest) (h : (Generate enc env req).2.2 ≠ none) :
    (Generate enc env req).1 = [] := by
  simp only [Generate] at h ⊢
  cases hval : validateBarcodeRequest (applyBarcodeDefaults req) with
  | some e => rfl
  | none =>
      rw [hval] at h
      dsimp only at h ⊢
      cases henc : encodeBarcode enc (applyBarcodeDefaults req).type
          (applyBarcodeDefaults req).data with
      | error e => rfl
      | ok bc =>
          rw [henc] at h
          dsimp only at h ⊢
          by_cases hpng : (applyBarcodeDefaults req).format = BarcodeFormatPNG
          · rw [if_pos hpng] at h ⊢
            simp only [renderBarcodePNG] at h ⊢
            cases hs : env.scaleErr bc (applyBarcodeDefaults req).width
                (applyBarcodeDefaults req).height with
            | some u => rfl
            | none =>
                rw [hs] at h
                dsimp only at h ⊢
                cases he : env.pngEncodeErr bc (applyBarcodeDefaults req).width
                    (applyBarcodeDefaults req).height (applyBarcodeDefaults req).includeText
                    (applyBarcodeDefaults req).data with
                | some u => rfl
                | none => rw [he] at h; exact absurd rfl h
          · rw [if_neg hpng] at h ⊢
            by_cases hsvg : (applyBarcodeDefaults req).format = BarcodeFormatSVG
            · rw [if_pos hsvg] at h
              exact absurd rfl h
            · rw [if_neg hsvg] at h ⊢

/-- Witness for C8: a request with an unsupported type errors with empty
bytes. -/
theorem generate_error_empty_bytes_witness :
    (Generate
      ⟨fun _ => .ok [], fun _ => .ok []⟩
      ⟨fun _ _ _ => none, fun _ _ _ _ _ => none,
        fun _ _ _ _ _ => [1], fun _ _ _ _ _ => [2]⟩
      { data := "x".toList, type := "QR", format := BarcodeFormatPNG,
        width := 0, height := 0, includeText := false, backgroundColor := "",
        foregroundColor := "", textColor := "", textPosition := "",
        fontSize := 0, padding := 0 }).1 = [] :=
  generate_error_empty_bytes _ _ _ (by decide)

/-- Claim C9: the cosmetic request fields have no effect — two requests
identical except in background/foreground/text color, text position, font
size and padding produce identical bytes, content type and error. -/
theorem cosmetic_fields_no_effect (enc : SymbologyEncoder) (env : RenderEnv)
    (req : GenerateRequest) (bg fg tc tp : String) (fs pd : Int) :
    Generate enc env
      { req with
          backgroundColor := bg, foregroundColor := fg, textColor := tc,
          textPosition := tp, fontSize := fs, padding := pd }
      = Generate enc env req := by
  obtain ⟨d, ty, fmt, w, h, it, bg0, fg0, tc0, tp0, fs0, pd0⟩ := req
  by_cases hw : w = (0 : Int) <;> by_cases hh : h = (0 : Int) <;>
    simp [Generate, applyBarcodeDefaults, validateBarcodeRequest, hw, hh]

/-- One `<rect fill="black">` element emitted by `renderBarcodeSVG`:
its x coordinate and width (Go float64 arithmetic modelled exactly in ℚ)
and its height attribute (`barcodeHeight`, a Go int). -/
structure SVGRect where
  x : ℚ
  w : ℚ
  h : Int
deriving Repr, DecidableEq

/-- The run-length scan loop of `renderBarcodeSVG` (barcode.go lines
313-330).  The loop variable x runs from 0 to the pattern width
INCLUSIVE; `isBar` is the pattern cell for x < width and is forced false
at the final iteration (the Go guard `x < bounds.Max.X`), which flushes a
trailing run; `startX = -1` is modelled as `none`.  The first argument of
the match is the remaining suffix of the pattern row (cell x onward), so
the `[]` cases are exactly the final iteration.  On a black-to-white
transition one rectangle `x = startX * scaleX`,
`width = (x - startX) * scaleX`, `height = barcodeHeight` is appended. -/
def svgScanGo (scaleX : ℚ) (barcodeHeight : Int) :
    List Bool → Nat → Option Nat → List SVGRect → List SVGRect
  | [], x, startX, rects =>
      match startX with
      | none => rects
      | some s =>
          rects ++ [⟨(s : ℚ) * scaleX, ((x - s : Nat) : ℚ) * scaleX, barcodeHeight⟩]
  | b :: rest, x, startX, rects =>
      match startX with
      | none =>
          svgScanGo scaleX barcodeHeight rest (x + 1)
            (if b then some x else none) rects
      | some s =>
          if b then svgScanGo scaleX barcodeHeight rest (x + 1) (some s) rects
          else
            svgScanGo scaleX barcodeHeight rest (x + 1) none
              (rects ++ [⟨(s : ℚ) * scaleX, ((x - s : Nat) : ℚ) * scaleX, barcodeHeight⟩])

/-- The rectangles emitted by `renderBarcodeSVG` for a bar pattern
(`true` = black, the Go predicate `r == 0` on `bc.At(x, y).RGBA()`):
`scaleX = float64(width) / float64(patternWidth)`, and the bar-region
height is `height` itself (`barcodeHeight := height`, unchanged by
`includeText`, which only enlarges the canvas below the bars). -/
def renderBarcodeSVGRects (pattern : List Bool) (width barcodeHeight : Int) :
    List SVGRect :=
  svgScanGo ((width : ℚ) / (pattern.length : ℚ)) barcodeHeight pattern 0 none []

/-- Spec-side definition, from the claim's words: the maximal runs of
contiguous black cells of a pattern, as `(start, length)` pairs in
left-to-right order, `i` being the absolute position of the head cell. -/
def blackRunsFrom (p : List Bool) (i : Nat) : List (Nat × Nat) :=
  match p with
  | [] => []
  | false :: rest => blackRunsFrom rest (i + 1)
  | true :: rest =>
      (i, (rest.takeWhile (fun b => b)).length + 1) ::
        blackRunsFrom (rest.drop (rest.takeWhile (fun b => b)).length)
          (i + (rest.takeWhile (fun b => b)).length + 1)
termination_by p.length
decreasing_by
  all_goals simp only [List.length_cons, List.length_drop]
  all_goals omega

/-- Spec-side: the maximal black runs of a bar pattern. -/
def blackRuns (pattern : List Bool) : List (Nat × Nat) := blackRunsFrom pattern 0

lemma svgScanGo_spec (scaleX : ℚ) (bh : Int) :
    ∀ (p : List Bool) (x : Nat) (st : Option Nat) (rects : List SVGRect),
      (∀ s, st = some s → s ≤ x) →
      svgScanGo scaleX bh p x st rects =
        rects ++
          (match st with
           | none => (blackRunsFrom p x).map
               (fun r => ⟨(r.1 : ℚ) * scaleX, (r.2 : ℚ) * scaleX, bh⟩)
           | some s =>
               ⟨(s : ℚ) * scaleX,
                 ((x + (p.takeWhile (fun b => b)).length - s : Nat) : ℚ) * scaleX, bh⟩ ::
                 (blackRunsFrom (p.drop (p.takeWhile (fun b => b)).length)
                     (x + (p.takeWhile (fun b => b)).length)).map
                   (fun r => ⟨(r.1 : ℚ) * scaleX, (r.2 : ℚ) * scaleX, bh⟩)) := by
  intro p
  induction p with
  | nil =>
      intro x st rects hst
      cases st with
      | none => simp [svgScanGo, blackRunsFrom]
      | some s => simp [svgScanGo, blackRunsFrom]
  | cons b rest ih =>
      intro x st rects hst
      cases st with
      | none =>
          cases b with
          | false =>
              rw [show svgScanGo scaleX bh (false :: rest) x none rects =
                svgScanGo scaleX bh rest (x + 1) none rects from rfl]
              rw [ih (x + 1) none rects (by intro s hs; cases hs)]
              simp [blackRunsFrom]
          | true =>
              rw [show svgScanGo scaleX bh (true :: rest) x none rects =
                svgScanGo scaleX bh rest (x + 1) (some x) rects from rfl]
              rw [ih (x + 1) (some x) rects
                (by intro s hs; injection hs with hss; omega)]
              dsimp only
              have h1 : x + 1 + (rest.takeWhile (fun b => b)).length - x
                  = (rest.takeWhile (fun b => b)).length + 1 := by omega
              have h2 : x + 1 + (rest.takeWhile (fun b => b)).length
                  = x + (rest.takeWhile (fun b => b)).length + 1 := by omega
              rw [h1, h2]
              simp [blackRunsFrom]
      | some s =>
          have hs : s ≤ x := hst s rfl
          cases b with
          | true =>
              rw [show svgScanGo scaleX bh (true :: rest) x (some s) rects =
                svgScanGo scaleX bh rest (x + 1) (some s) rects from rfl]
              rw [ih (x + 1) (some s) rects
                (by intro s' hs'; injection hs' with hss; omega)]
              dsimp only
              have h2 : x + 1 + (rest.takeWhile (fun b => b)).length
                  = x + ((rest.takeWhile (fun b => b)).length + 1) := by omega
              simp only [List.takeWhile_cons, if_pos, List.length_cons,
                List.drop_succ_cons, h2]
          | false =>
              rw [show svgScanGo scaleX bh (false :: rest) x (some s) rects =
                svgScanGo scaleX bh rest (x + 1) none
                  (rects ++ [⟨(s : ℚ) * scaleX, ((x - s : Nat) : ℚ) * scaleX, bh⟩])
                from rfl]
              rw [ih (x + 1) none _ (by intro s' hs'; cases hs')]
              simp [blackRunsFrom, List.append_assoc]

/-- Claim C3: the SVG renderer emits exactly one black rectangle per
maximal run of contiguous black cells of the bar pattern, in
left-to-right order, including a trailing run that ends at the last
column (flushed by the final loop iteration, where `isBar` is forced
false); each rectangle has `x = runStart * scaleX`,
`width = runLength * scaleX` and height equal to the bar-region height. -/
theorem renderBarcodeSVGRects_runs (pattern : List Bool) (width barcodeHeight : Int) :
    renderBarcodeSVGRects pattern width barcodeHeight =
      (blackRuns pattern).map fun r =>
        ⟨(r.1 : ℚ) * ((width : ℚ) / (pattern.length : ℚ)),
         (r.2 : ℚ) * ((width : ℚ) / (pattern.length : ℚ)), barcodeHeight⟩ := by
  have h := svgScanGo_spec ((width : ℚ) / (pattern.length : ℚ)) barcodeHeight pattern
    0 none [] (by intro s hs; cases hs)
  simpa [renderBarcodeSVGRects, blackRuns] using h

/-- Go `strings.ReplaceAll` for a single-character pattern: every
occurrence of `old` is replaced by `new`, scanning left to right and
never rescanning the inserted replacement. -/
def replaceAllChar (old : Char) (new : List Char) : List Char → List Char
  | [] => []
  | c :: rest => (if c = old then new else [c]) ++ replaceAllChar old new rest

/-- `barcodeSVGEscape` from barcode.go: five sequential
`strings.ReplaceAll` passes, ampersand first so that the ampersands
introduced by the later entity replacements are not re-escaped. -/
def barcodeSVGEscape (s : List Char) : List Char :=
  replaceAllChar '\'' ("&apos;".toList)
    (replaceAllChar '"' ("&quot;".toList)
      (replaceAllChar '>' ("&gt;".toList)
        (replaceAllChar '<' ("&lt;".toList)
          (replaceAllChar '&' ("&amp;".toList) s))))

/-- The `<text>` element written by `renderBarcodeSVG` when `includeText`
is set (barcode.go lines 332-337): `x = width/2`,
`y = barcodeHeight + textPaddingHeight - 2`, content
`barcodeSVGEscape text`. -/
def renderBarcodeSVGTextElem (width barcodeHeight : Int) (text : List Char) :
    List Char :=
  ("<text x=\"" ++ toString (width / 2) ++ "\" y=\"" ++
    toString (barcodeHeight + textPaddingHeight - 2) ++
    "\" text-anchor=\"middle\" font-family=\"monospace\" font-size=\"12\" fill=\"black\">").toList
  ++ barcodeSVGEscape text ++ ("</text>".toList)

/-- Character-wise concatenation map (spec-side helper). -/
def escList (f : Char → List Char) : List Char → List Char
  | [] => []
  | c :: rest => f c ++ escList f rest

/-- Spec-side, from the claim's words: each of the five markup
metacharacters replaced by its entity, every other character kept. -/
def escapeCharSpec (c : Char) : List Char :=
  if c = '&' then "&amp;".toList
  else if c = '<' then "&lt;".toList
  else if c = '>' then "&gt;".toList
  else if c = '"' then "&quot;".toList
  else if c = '\'' then "&apos;".toList
  else [c]

lemma escList_append (f : Char → List Char) (l1 l2 : List Char) :
    escList f (l1 ++ l2) = escList f l1 ++ escList f l2 := by
  induction l1 with
  | nil => rfl
  | cons c t ih => simp [escList, ih]

lemma replaceAllChar_eq_escList (old : Char) (new : List Char) (s : List Char) :
    replaceAllChar old new s =
      escList (fun c => if c = old then new else [c]) s := by
  induction s with
  | nil => rfl
  | cons c t ih => simp [replaceAllChar, escList, ih]

lemma escList_comp (f g : Char → List Char) (s : List Char) :
    escList g (escList f s) = escList (fun c => escList g (f c)) s := by
  induction s with
  | nil => rfl
  | cons c t ih => simp [escList, escList_append, ih]

lemma escList_congr (f g : Char → List Char) (h : ∀ c, f c = g c) (s : List Char) :
    escList f s = escList g s := by
  induction s with
  | nil => rfl
  | cons c t ih => simp [escList, ih, h c]

lemma barcodeSVGEscape_eq (s : List Char) :
    barcodeSVGEscape s = escList escapeCharSpec s := by
  unfold barcodeSVGEscape
  rw [replaceAllChar_eq_escList, replaceAllChar_eq_escList,
    replaceAllChar_eq_escList, replaceAllChar_eq_escList,
    replaceAllChar_eq_escList, escList_comp, escList_comp, escList_comp,
    escList_comp]
  refine escList_congr _ _ (fun c => ?_) s
  by_cases h1 : c = '&'
  · subst h1; decide
  by_cases h2 : c = '<'
  · subst h2; decide
  by_cases h3 : c = '>'
  · subst h3; decide
  by_cases h4 : c = '"'
  · subst h4; decide
  by_cases h5 : c = '\''
  · subst h5; decide
  simp [escList, escapeCharSpec, h1, h2, h3, h4, h5]

lemma escapeCharSpec_no_lt (c : Char) : '<' ∉ escapeCharSpec c := by
  intro hmem
  unfold escapeCharSpec at hmem
  split_ifs at hmem with h1 h2 h3 h4 h5 <;> simp_all
  exact h2 hmem.symm

lemma escapeCharSpec_no_gt (c : Char) : '>' ∉ escapeCharSpec c := by
  intro hmem
  unfold escapeCharSpec at hmem
  split_ifs at hmem with h1 h2 h3 h4 h5 <;> simp_all
  exact h3 hmem.symm

lemma escList_not_mem (f : Char → List Char) (a : Char)
    (h : ∀ c, a ∉ f c) (s : List Char) : a ∉ escList f s := by
  induction s with
  | nil => simp [escList]
  | cons c t ih =>
      simp only [escList, List.mem_append]
      rintro (hc | ht)
      · exact h c hc
      · exact ih ht

/-- Claim C4: the label text placed in the emitted `<text>` element is
escaped for the five markup metacharacters (each source character
replaced independently by its entity, ampersand first and never
double-escaped), so the text node never holds a raw `<` or `>`; in
particular `<tag>` becomes `&lt;tag&gt;` and a lone `&` becomes
`&amp;`, not `&amp;amp;`. -/
theorem barcodeSVGEscape_escapes (width barcodeHeight : Int) (s : List Char) :
    barcodeSVGEscape s = escList escapeCharSpec s ∧
    '<' ∉ barcodeSVGEscape s ∧
    '>' ∉ barcodeSVGEscape s ∧
    barcodeSVGEscape ("&".toList) = "&amp;".toList ∧
    barcodeSVGEscape ("<tag>".toList) = "&lt;tag&gt;".toList ∧
    renderBarcodeSVGTextElem width barcodeHeight s =
      ("<text x=\"" ++ toString (width / 2) ++ "\" y=\"" ++
        toString (barcodeHeight + textPaddingHeight - 2) ++
        "\" text-anchor=\"middle\" font-family=\"monospace\" font-size=\"12\" fill=\"black\">").toList
      ++ escList escapeCharSpec s ++ ("</text>".toList) := by
  refine ⟨barcodeSVGEscape_eq s, ?_, ?_, by decide, by decide, ?_⟩
  · rw [barcodeSVGEscape_eq s]
    exact escList_not_mem _ _ escapeCharSpec_no_lt s
  · rw [barcodeSVGEscape_eq s]
    exact escList_not_mem _ _ escapeCharSpec_no_gt s
  · unfold renderBarcodeSVGTextElem
    rw [barcodeSVGEscape_eq s]

end Generator
